import Mathlib

/-!
Verification of the chat-overlay core of `minawan-watch-party` (`src/src/main.rs`):
the async Twitch listener with its per-process seen-emote set, the bounded
mpsc bridge, the consumer's per-tick message handler with its active-user
table and emote-storage merge, the eviction scan, and the deferred
sprite-scale fix-up. Rust `HashMap`/`HashSet` values are embedded as
association lists / membership lists (faithful up to key lookup and
membership, which is all the code uses); `Instant` timestamps and Bevy
`Entity` handles are embedded as naturals; f32 sprite arithmetic is embedded
exactly over `Rat`.
-/

namespace WatchParty

/-- An emote as carried inside a `TwitchMessage` (`types.rs` is not under
`src/`; the spec's EmoteMetadata is {token, source-URL, dimensions}). The
`url` field is the resolved metadata payload, absent until resolution. -/
structure Emote where
  name : String
  url : Option String
deriving DecidableEq, Repr

/-- The normalized event sent over the bridge: sender name, message text and
the (metadata-enriched) emote occurrence list, mirroring `TwitchMessage`. -/
structure TwitchMessage where
  user : String
  message : String
  emotes : List Emote
deriving DecidableEq, Repr

/-- An incoming IRC server message as seen by `start_twitch_client`: either a
`Privmsg` with sender, text and emote occurrences, or any other kind. -/
inductive ServerMessage where
  | privmsg (sender : String) (text : String) (emotes : List Emote)
  | other
deriving DecidableEq, Repr

/-- Modelled from the spec: `update_emote_meta` lives in `emotes.rs`, which is
not under `src/`. Per the spec, resolution fetches the token's metadata
(image URL); on resolution failure the event proceeds with the token as plain
text (no image). The fetch outcome is an oracle from token to optional URL;
on failure the emote is left unchanged. -/
def update_emote_meta (resolve : String → Option String) (e : Emote) : Emote :=
  match resolve e.name with
  | some u => { e with url := some u }
  | none => e

/-- State of the listener task in `start_twitch_client`: the `seen_emotes`
set (a membership list standing for the Rust `HashSet`), plus two
observation logs: every token passed to `update_emote_meta` (one entry per
invocation, in order) and every event handed to `tx.send`. -/
structure ListenerState where
  seen_emotes : List String
  resolveLog : List String
  sentEvents : List TwitchMessage
deriving DecidableEq, Repr

/-- The enriched emote list of one `Privmsg`: `iter_mut().filter(...)` calls
`update_emote_meta` on exactly the occurrences whose name is not in
`seen_emotes` (which is not modified during the loop), in place. -/
def processedEmotes (resolve : String → Option String) (seen : List String)
    (emotes : List Emote) : List Emote :=
  emotes.map (fun e => if e.name ∈ seen then e else update_emote_meta resolve e)

/-- The names passed to `update_emote_meta` while processing one `Privmsg`:
one entry per occurrence whose name is not in `seen_emotes`. -/
def resolveCalls (seen : List String) (emotes : List Emote) : List String :=
  (emotes.filter (fun e => decide (e.name ∉ seen))).map (fun e => e.name)

/-- One iteration of the `while let` loop of `start_twitch_client`. A
`Privmsg` is enriched, the not-yet-seen names are resolved and collected
into `new_emotes`, `seen_emotes` is extended with them after the loop, and
the message is sent; any other server message is ignored. (`new_emotes` is a
`HashSet`; appending the call list models extending it, with the same
membership.) -/
def listenerStep (resolve : String → Option String) (st : ListenerState)
    (m : ServerMessage) : ListenerState :=
  match m with
  | .other => st
  | .privmsg sender text emotes =>
      { seen_emotes := st.seen_emotes ++ resolveCalls st.seen_emotes emotes,
        resolveLog := st.resolveLog ++ resolveCalls st.seen_emotes emotes,
        sentEvents := st.sentEvents ++
          [{ user := sender, message := text,
             emotes := processedEmotes resolve st.seen_emotes emotes }] }

/-- The listener processes its incoming message stream in order. -/
def listenerRun (resolve : String → Option String) (st : ListenerState)
    (msgs : List ServerMessage) : ListenerState :=
  msgs.foldl (listenerStep resolve) st

/-- The listener starts with an empty `seen_emotes` set and no history. -/
def listenerInit : ListenerState :=
  { seen_emotes := [], resolveLog := [], sentEvents := [] }

/-- A server message whose emote occurrence list mentions the token T at
most once (other tokens may repeat freely). -/
def mentionsAtMostOnce (T : String) (m : ServerMessage) : Prop :=
  match m with
  | .privmsg _ _ emotes => (emotes.map Emote.name).count T ≤ 1
  | .other => True

instance (T : String) (m : ServerMessage) :
    Decidable (mentionsAtMostOnce T m) := by
  unfold mentionsAtMostOnce
  cases m <;> infer_instance

/-- The per-token listener invariant: the token was resolved at most once so
far, and if it was ever resolved it is in the seen set. -/
def listenerTokenInv (T : String) (st : ListenerState) : Prop :=
  st.resolveLog.count T ≤ 1 ∧ (T ∈ st.resolveLog → T ∈ st.seen_emotes)

/-! Association lists standing for the Rust `HashMap`s (`EmoteStorage.all`
and `AppState.active_users`), faithful up to key lookup. -/

/-- Lookup by key, mirroring `HashMap::get`. -/
def lookupA (l : List (String × α)) (k : String) : Option α :=
  match l with
  | [] => none
  | (k', v) :: t => if k' = k then some v else lookupA t k

/-- Insert-or-replace by key, mirroring `HashMap::insert` (and the in-place
update through `get_mut`). -/
def insertA (l : List (String × α)) (k : String) (v : α) : List (String × α) :=
  match l with
  | [] => [(k, v)]
  | (k', v') :: t => if k' = k then (k, v) :: t else (k', v') :: insertA t k v

/-- Insert only when the key is absent, mirroring `entry(k).or_insert(v)`. -/
def insertIfAbsent (l : List (String × α)) (k : String) (v : α) :
    List (String × α) :=
  match lookupA l k with
  | some _ => l
  | none => l ++ [(k, v)]

/-- Key distinctness, the `HashMap` representation invariant. -/
def keysNodup (l : List (String × α)) : Prop :=
  (l.map Prod.fst).Nodup

instance (l : List (String × α)) : Decidable (keysNodup l) := by
  unfold keysNodup
  infer_instance

/-- One row of `AppState.active_users`: the avatar entity handle (embedded as
a natural), the `_name`, and `last_message_time` (an `Instant`, embedded as a
tick number). -/
structure User where
  entity : Nat
  name : String
  last_message_time : Nat
deriving DecidableEq, Repr

/-- The consumer-domain state touched by the claims: the `EmoteStorage.all`
map, the `active_users` table, a fresh-entity counter standing for Bevy's
entity allocator, and observation logs of bubble attachments
(`display_message` calls), avatar spawns and despawns. -/
structure ConsumerState where
  emoteAll : List (String × Emote)
  activeUsers : List (String × User)
  nextEntity : Nat
  bubbles : List (Nat × String)
  spawnLog : List Nat
  despawnLog : List Nat
deriving DecidableEq, Repr

/-- Avatar-handle distinctness across the active-user table: distinct
sessions hold distinct rendering-engine entities (Bevy never hands out the
same live entity twice, embedded via the fresh-entity counter). -/
def entitiesNodup (l : List (String × User)) : Prop :=
  (l.map (fun p => p.2.entity)).Nodup

instance (l : List (String × User)) : Decidable (entitiesNodup l) := by
  unfold entitiesNodup
  infer_instance

/-- The per-event merge at the top of the `handle_twitch_messages` drain
loop: `emote_rec.all.entry(name).or_insert(emote)` for each attached emote,
in order. -/
def mergeEmotes (emoteAll : List (String × Emote)) (emotes : List Emote) :
    List (String × Emote) :=
  emotes.foldl (fun acc e => insertIfAbsent acc e.name e) emoteAll

/-- The message the Rust runtime prints when `Option::unwrap` is called on
`None`, which is what `logical_viewport_rect().unwrap()` does when the
camera cannot yet report a viewport. -/
def unwrapPanic : String := "called Option.unwrap on a None value"

/-- The body of the `handle_twitch_messages` drain loop for one drained
`TwitchMessage`: merge attached emote metadata into `EmoteStorage.all`; if
the sender has an active session, display the message on its entity and
refresh `last_message_time`; otherwise read the viewport
(`query.single().logical_viewport_rect().unwrap()` — a panic, modelled as
`Except.error`, when it is unavailable), spawn a fresh avatar entity
(`spawn_user`, from the missing `users.rs`, modelled from the spec as
`spawnAvatar -> handle` returning a fresh handle), display the message on
it, and insert the new session. `display_message` (missing `messages.rs`)
is modelled from the spec as `attachBubble(handle, text)`, recorded in the
bubble log. `viewport` is `some ()` when
`query.single().logical_viewport_rect()` yields a rect. -/
def processEvent (viewport : Option Unit) (now : Nat) (st : ConsumerState)
    (m : TwitchMessage) : Except String ConsumerState :=
  let merged := mergeEmotes st.emoteAll m.emotes
  match lookupA st.activeUsers m.user with
  | some u =>
      Except.ok { st with
        emoteAll := merged,
        bubbles := st.bubbles ++ [(u.entity, m.message)],
        activeUsers := insertA st.activeUsers m.user
          { u with last_message_time := now } }
  | none =>
      match viewport with
      | none => Except.error unwrapPanic
      | some _ =>
          Except.ok { st with
            emoteAll := merged,
            activeUsers := st.activeUsers ++
              [(m.user, { entity := st.nextEntity, name := m.user,
                          last_message_time := now })],
            nextEntity := st.nextEntity + 1,
            bubbles := st.bubbles ++ [(st.nextEntity, m.message)],
            spawnLog := st.spawnLog ++ [st.nextEntity] }

/-- A whole drain: the drained messages processed in order, all within one
tick (one viewport reading, one `now`). Stops at the first panic. -/
def consumerRun (viewport : Option Unit) (now : Nat) (st : ConsumerState)
    (ms : List TwitchMessage) : Except String ConsumerState :=
  match ms with
  | [] => Except.ok st
  | m :: t =>
      match processEvent viewport now st m with
      | Except.ok st' => consumerRun viewport now st' t
      | Except.error e => Except.error e

/-- The consumer state at startup: empty storage, empty table. -/
def consumerInit : ConsumerState :=
  { emoteAll := [], activeUsers := [], nextEntity := 0, bubbles := [],
    spawnLog := [], despawnLog := [] }

/-- Modelled from the spec: `despawn_users` lives in `users.rs`, which is not
under `src/`. Per the spec, the per-tick eviction scan removes every
`UserSession` whose `lastActivity` is at least the inactivity threshold old
and despawns its avatar handle; sessions refreshed less than the threshold
ago are kept untouched. -/
def despawn_users (threshold now : Nat) (st : ConsumerState) : ConsumerState :=
  { st with
    activeUsers :=
      st.activeUsers.filter (fun p => decide (now - p.2.last_message_time < threshold)),
    despawnLog := st.despawnLog ++
      ((st.activeUsers.filter
          (fun p => decide (threshold ≤ now - p.2.last_message_time))).map
        (fun p => p.2.entity)) }

/-! The deferred sprite fix-up (`adjust_sprite_scale_system`). Dimensions are
embedded exactly over `Rat`; the Bevy `Visibility` enum is embedded as the
`Bool` of being `Visible`. -/

/-- A visual object as seen by `adjust_sprite_scale_system`: its texture
handle (a key into the image assets), the sprite's `custom_size`, its
visibility, and whether the `AdjustScale` pending marker is present. -/
structure SpriteEntity where
  image : String
  customSize : Option (Rat × Rat)
  visible : Bool
  adjustScale : Bool
deriving DecidableEq, Repr

/-- The loop body of `adjust_sprite_scale_system` for one entity. The query
filters on `With<AdjustScale>`, so unmarked entities are untouched; if the
image asset is not yet available (`images.get` is `None`) nothing happens;
otherwise the sprite's `custom_size` is set to the intrinsic size scaled by
`46.0 / texture_height`, the entity is made visible, and the `AdjustScale`
marker is removed. -/
def adjustSprite (images : String → Option (Rat × Rat)) (e : SpriteEntity) :
    SpriteEntity :=
  if e.adjustScale then
    match images e.image with
    | some wh =>
        { e with
          customSize := some (wh.1 * (46 / wh.2), wh.2 * (46 / wh.2)),
          visible := true,
          adjustScale := false }
    | none => e
  else e

/-- One run of `adjust_sprite_scale_system` over all queried entities. -/
def adjust_sprite_scale_system (images : String → Option (Rat × Rat))
    (es : List SpriteEntity) : List SpriteEntity :=
  es.map (adjustSprite images)

/-! The channel bridge: `mpsc::channel::<TwitchMessage>(100)` used with
`tx.send(..).await` in the listener and `try_recv()` in the consumer's drain
loop. The tokio bounded channel is an external collaborator; it is embedded
at its interface as a FIFO queue of capacity 100 with logs of the
successfully enqueued and the dequeued events, plus a count of the times a
send found the queue full and suspended the sender. -/

/-- The bridge state: the in-flight queue (front = oldest), the log of
events accepted by `send`, the log of events returned by `try_recv`, and
how often a sender was suspended on a full queue. -/
structure BridgeState (α : Type) where
  queue : List α
  sentLog : List α
  recvLog : List α
  suspended : Nat
deriving DecidableEq, Repr

/-- One interaction with the bridge: an asynchronous `send` from the
listener, or a non-blocking `try_recv` from the consumer. -/
inductive BridgeOp (α : Type) where
  | send (x : α)
  | tryRecv
deriving DecidableEq, Repr

/-- The channel capacity passed to `mpsc::channel` in `main`. -/
def bridgeCapacity : Nat := 100

/-- The bridge's reaction to one operation. `send` enqueues at the back when
a slot is free and otherwise suspends the sender (no drop, no enqueue);
`try_recv` dequeues the front when the queue is nonempty and otherwise
returns empty without changing anything. -/
def bridgeStep (cap : Nat) (st : BridgeState α) (op : BridgeOp α) :
    BridgeState α :=
  match op with
  | .send x =>
      if st.queue.length < cap then
        { st with queue := st.queue ++ [x], sentLog := st.sentLog ++ [x] }
      else
        { st with suspended := st.suspended + 1 }
  | .tryRecv =>
      match st.queue with
      | [] => st
      | x :: t => { st with queue := t, recvLog := st.recvLog ++ [x] }

/-- A whole interleaving of sends and receives, applied in order. -/
def bridgeRun (cap : Nat) (st : BridgeState α) (ops : List (BridgeOp α)) :
    BridgeState α :=
  ops.foldl (bridgeStep cap) st

/-- The freshly created channel: empty queue, empty logs. -/
def bridgeInit : BridgeState α :=
  { queue := [], sentLog := [], recvLog := [], suspended := 0 }

/-- The bridge's delivery invariant: what was accepted by `send` is exactly
what `try_recv` already delivered, in order, followed by what is still
queued; and the queue never exceeds the capacity. -/
def bridgeInv (cap : Nat) (st : BridgeState α) : Prop :=
  st.sentLog = st.recvLog ++ st.queue ∧ st.queue.length ≤ cap

/-! Helper lemmas about the embedded operations. -/

lemma update_emote_meta_name (resolve : String → Option String) (e : Emote) :
    (update_emote_meta resolve e).name = e.name := by
  unfold update_emote_meta
  cases resolve e.name <;> rfl

lemma processedEmotes_map_name (resolve : String → Option String)
    (seen : List String) (es : List Emote) :
    (processedEmotes resolve seen es).map Emote.name = es.map Emote.name := by
  unfold processedEmotes
  rw [List.map_map]
  apply List.map_congr_left
  intro e _
  by_cases h : e.name ∈ seen
  · simp [h]
  · simp [h, update_emote_meta_name]

lemma resolveCalls_sublist (seen : List String) (es : List Emote) :
    List.Sublist (resolveCalls seen es) (es.map Emote.name) :=
  List.Sublist.map Emote.name (List.filter_sublist es)

lemma resolveCalls_count_eq_zero_of_mem {seen : List String} {es : List Emote}
    {T : String} (h : T ∈ seen) : (resolveCalls seen es).count T = 0 := by
  rw [List.count_eq_zero]
  intro hT
  rcases List.mem_map.mp hT with ⟨e, he, rfl⟩
  rcases List.mem_filter.mp he with ⟨-, hpe⟩
  rw [decide_eq_true_eq] at hpe
  exact hpe h

lemma resolveCalls_count_le (seen : List String) (es : List Emote)
    (T : String) :
    (resolveCalls seen es).count T ≤ (es.map Emote.name).count T :=
  (resolveCalls_sublist seen es).count_le T

lemma resolveCalls_count_of_not_seen {seen : List String} {T : String}
    (es : List Emote) (h : T ∉ seen) :
    (resolveCalls seen es).count T = (es.map Emote.name).count T := by
  induction es with
  | nil => rfl
  | cons e t ih =>
      unfold resolveCalls at ih ⊢
      rw [List.filter_cons]
      by_cases he : e.name ∈ seen
      · have hd : decide (e.name ∉ seen) = false := by simp [he]
        have hne : e.name ≠ T := fun hEq => h (hEq ▸ he)
        rw [hd]
        simp only [Bool.false_eq_true, if_false, List.map_cons,
          List.count_cons]
        rw [ih]
        simp [hne]
      · have hd : decide (e.name ∉ seen) = true := by simp [he]
        rw [hd]
        simp only [if_true, List.map_cons, List.count_cons]
        rw [ih]

lemma mem_resolveCalls_of_not_seen {seen : List String} {es : List Emote}
    {e : Emote} (hmem : e ∈ es) (hns : e.name ∉ seen) :
    e.name ∈ resolveCalls seen es := by
  exact List.mem_map.mpr ⟨e, List.mem_filter.mpr ⟨hmem, by simpa using hns⟩, rfl⟩

lemma listenerTokenInv_step {T : String} {st : ListenerState}
    {m : ServerMessage} (resolve : String → Option String)
    (hnd : mentionsAtMostOnce T m) (h : listenerTokenInv T st) :
    listenerTokenInv T (listenerStep resolve st m) := by
  obtain ⟨hcount, hseen⟩ := h
  cases m with
  | other => exact ⟨hcount, hseen⟩
  | privmsg sender text emotes =>
      unfold mentionsAtMostOnce at hnd
      by_cases hT : T ∈ st.seen_emotes
      · constructor
        · simp only [listenerStep, List.count_append,
            resolveCalls_count_eq_zero_of_mem hT]
          omega
        · intro _
          simp only [listenerStep, List.mem_append]
          exact Or.inl hT
      · have hlog : T ∉ st.resolveLog := fun hmem => hT (hseen hmem)
        constructor
        · simp only [listenerStep, List.count_append]
          rw [List.count_eq_zero.mpr hlog]
          simpa using le_trans (resolveCalls_count_le st.seen_emotes emotes T) hnd
        · intro hmem
          simp only [listenerStep, List.mem_append] at hmem ⊢
          rcases hmem with hmem | hmem
          · exact absurd hmem hlog
          · exact Or.inr hmem

lemma lookupA_eq_none_iff {l : List (String × α)} {k : String} :
    lookupA l k = none ↔ k ∉ l.map Prod.fst := by
  induction l with
  | nil => simp [lookupA]
  | cons p t ih =>
      obtain ⟨k', v'⟩ := p
      by_cases h : k' = k
      · subst h
        simp [lookupA]
      · simp [lookupA, h, ih, Ne.symm h]

lemma lookupA_append_left {l l2 : List (String × α)} {k : String} {v : α}
    (h : lookupA l k = some v) : lookupA (l ++ l2) k = some v := by
  induction l with
  | nil => simp [lookupA] at h
  | cons p t ih =>
      obtain ⟨k', v'⟩ := p
      by_cases hk : k' = k
      · simpa [lookupA, hk] using h
      · rw [lookupA] at h
        rw [if_neg hk] at h
        simpa [lookupA, hk] using ih h

lemma lookupA_append_right {l l2 : List (String × α)} {k : String}
    (h : lookupA l k = none) : lookupA (l ++ l2) k = lookupA l2 k := by
  induction l with
  | nil => rfl
  | cons p t ih =>
      obtain ⟨k', v'⟩ := p
      by_cases hk : k' = k
      · simp [lookupA, hk] at h
      · rw [lookupA] at h
        rw [if_neg hk] at h
        simpa [lookupA, hk] using ih h

lemma lookupA_insertA_self (l : List (String × α)) (k : String) (v : α) :
    lookupA (insertA l k v) k = some v := by
  induction l with
  | nil => simp [insertA, lookupA]
  | cons p t ih =>
      obtain ⟨k', v'⟩ := p
      by_cases hk : k' = k
      · simp [insertA, hk, lookupA]
      · simp [insertA, hk, lookupA, ih]

lemma map_fst_insertA_of_some {l : List (String × α)} {k : String} {w : α}
    (h : lookupA l k = some w) (v : α) :
    (insertA l k v).map Prod.fst = l.map Prod.fst := by
  induction l with
  | nil => simp [lookupA] at h
  | cons p t ih =>
      obtain ⟨k', v'⟩ := p
      by_cases hk : k' = k
      · subst hk
        simp [insertA]
      · rw [lookupA] at h
        rw [if_neg hk] at h
        simp [insertA, hk, ih h]

lemma keysNodup_insertA_of_some {l : List (String × α)} {k : String} {w : α}
    (h : lookupA l k = some w) (v : α) (hnd : keysNodup l) :
    keysNodup (insertA l k v) := by
  unfold keysNodup at hnd ⊢
  rwa [map_fst_insertA_of_some h v]

lemma keysNodup_append_new {l : List (String × α)} {k : String} (v : α)
    (hnd : keysNodup l) (h : lookupA l k = none) :
    keysNodup (l ++ [(k, v)]) := by
  unfold keysNodup at hnd ⊢
  rw [List.map_append, List.nodup_append]
  refine ⟨hnd, List.nodup_singleton k, ?_⟩
  intro a ha hb
  simp only [List.map_cons, List.map_nil, List.mem_singleton] at hb
  subst hb
  exact lookupA_eq_none_iff.mp h ha

lemma lookupA_eq_some_of_mem {l : List (String × α)} {k : String} {u : α}
    (hnd : keysNodup l) (hmem : (k, u) ∈ l) : lookupA l k = some u := by
  induction l with
  | nil => cases hmem
  | cons p t ih =>
      obtain ⟨k', v'⟩ := p
      unfold keysNodup at hnd
      rw [List.map_cons, List.nodup_cons] at hnd
      rcases List.mem_cons.mp hmem with heq | hmem'
      · rw [Prod.mk.injEq] at heq
        obtain ⟨h1, h2⟩ := heq
        simp [lookupA, h1, h2]
      · have hk : k' ≠ k := by
          intro hkk
          subst hkk
          exact hnd.1 (List.mem_map.mpr ⟨(k', u), hmem', rfl⟩)
        rw [lookupA, if_neg hk]
        exact ih hnd.2 hmem'

lemma lookupA_insertIfAbsent_of_some {l : List (String × α)} {t k : String}
    {e v : α} (h : lookupA l t = some e) :
    lookupA (insertIfAbsent l k v) t = some e := by
  unfold insertIfAbsent
  cases hk : lookupA l k with
  | some w => exact h
  | none => exact lookupA_append_left h

lemma lookupA_mergeEmotes_of_some {es : List Emote}
    {l : List (String × Emote)} {t : String} {e : Emote}
    (h : lookupA l t = some e) : lookupA (mergeEmotes l es) t = some e := by
  induction es generalizing l with
  | nil => exact h
  | cons e' t' ih => exact ih (lookupA_insertIfAbsent_of_some h)

lemma processEvent_lookup_some {st : ConsumerState} {m : TwitchMessage}
    {u : User} (v : Option Unit) (now : Nat)
    (h : lookupA st.activeUsers m.user = some u) :
    processEvent v now st m = Except.ok { st with
      emoteAll := mergeEmotes st.emoteAll m.emotes,
      bubbles := st.bubbles ++ [(u.entity, m.message)],
      activeUsers := insertA st.activeUsers m.user
        { u with last_message_time := now } } := by
  unfold processEvent
  rw [h]

lemma processEvent_lookup_none {st : ConsumerState} {m : TwitchMessage}
    (now : Nat) (h : lookupA st.activeUsers m.user = none) :
    processEvent (some ()) now st m = Except.ok { st with
      emoteAll := mergeEmotes st.emoteAll m.emotes,
      activeUsers := st.activeUsers ++
        [(m.user, { entity := st.nextEntity, name := m.user,
                    last_message_time := now })],
      nextEntity := st.nextEntity + 1,
      bubbles := st.bubbles ++ [(st.nextEntity, m.message)],
      spawnLog := st.spawnLog ++ [st.nextEntity] } := by
  unfold processEvent
  rw [h]

lemma processEvent_lookup_none_no_viewport {st : ConsumerState}
    {m : TwitchMessage} (now : Nat)
    (h : lookupA st.activeUsers m.user = none) :
    processEvent none now st m = Except.error unwrapPanic := by
  unfold processEvent
  rw [h]

lemma processEvent_emoteAll {v : Option Unit} {now : Nat}
    {st st' : ConsumerState} {m : TwitchMessage}
    (h : processEvent v now st m = Except.ok st') :
    st'.emoteAll = mergeEmotes st.emoteAll m.emotes := by
  unfold processEvent at h
  cases hlk : lookupA st.activeUsers m.user with
  | some u =>
      rw [hlk] at h
      cases h
      rfl
  | none =>
      rw [hlk] at h
      cases v with
      | none => cases h
      | some x =>
          cases x
          cases h
          rfl

lemma processEvent_keysNodup {v : Option Unit} {now : Nat}
    {st st' : ConsumerState} {m : TwitchMessage}
    (hnd : keysNodup st.activeUsers)
    (h : processEvent v now st m = Except.ok st') :
    keysNodup st'.activeUsers := by
  unfold processEvent at h
  cases hlk : lookupA st.activeUsers m.user with
  | some u =>
      rw [hlk] at h
      cases h
      exact keysNodup_insertA_of_some hlk _ hnd
  | none =>
      rw [hlk] at h
      cases v with
      | none => cases h
      | some x =>
          cases x
          cases h
          exact keysNodup_append_new _ hnd hlk

lemma consumerRun_keysNodup {v : Option Unit} {now : Nat}
    {st st' : ConsumerState} {ms : List TwitchMessage}
    (hnd : keysNodup st.activeUsers)
    (h : consumerRun v now st ms = Except.ok st') :
    keysNodup st'.activeUsers := by
  induction ms generalizing st with
  | nil =>
      unfold consumerRun at h
      cases h
      exact hnd
  | cons m t ih =>
      unfold consumerRun at h
      cases hp : processEvent v now st m with
      | ok st1 =>
          rw [hp] at h
          exact ih (processEvent_keysNodup hnd hp) h
      | error e =>
          rw [hp] at h
          cases h

lemma despawn_users_lookup_none {threshold now : Nat} {st : ConsumerState}
    {I : String} {u : User} (hnd : keysNodup st.activeUsers)
    (hmem : (I, u) ∈ st.activeUsers)
    (hold : threshold ≤ now - u.last_message_time) :
    lookupA (despawn_users threshold now st).activeUsers I = none := by
  rw [lookupA_eq_none_iff]
  intro hI
  rcases List.mem_map.mp hI with ⟨p, hp, hfst⟩
  obtain ⟨k, w⟩ := p
  rcases List.mem_filter.mp hp with ⟨hwl, hwp⟩
  rw [decide_eq_true_eq] at hwp
  cases hfst
  have h1 := lookupA_eq_some_of_mem hnd hmem
  have h2 := lookupA_eq_some_of_mem hnd hwl
  rw [h1] at h2
  cases h2
  have hwp' : now - u.last_message_time < threshold := hwp
  omega

lemma despawn_users_despawnLog_count {threshold now : Nat}
    {st : ConsumerState} {I : String} {u : User}
    (hend : entitiesNodup st.activeUsers) (hmem : (I, u) ∈ st.activeUsers)
    (hold : threshold ≤ now - u.last_message_time) :
    (despawn_users threshold now st).despawnLog.count u.entity
      = st.despawnLog.count u.entity + 1 := by
  unfold despawn_users
  rw [List.count_append]
  congr 1
  apply List.count_eq_one_of_mem
  · exact List.Nodup.sublist
      (List.Sublist.map _ (List.filter_sublist st.activeUsers)) hend
  · refine List.mem_map.mpr ⟨(I, u), List.mem_filter.mpr ⟨hmem, ?_⟩, rfl⟩
    exact decide_eq_true hold

lemma despawn_users_keeps {threshold now : Nat} {st : ConsumerState}
    {I : String} {u : User} (hmem : (I, u) ∈ st.activeUsers)
    (hfresh : now - u.last_message_time < threshold) :
    (I, u) ∈ (despawn_users threshold now st).activeUsers := by
  unfold despawn_users
  exact List.mem_filter.mpr ⟨hmem, decide_eq_true hfresh⟩

lemma despawn_users_nextEntity (threshold now : Nat) (st : ConsumerState) :
    (despawn_users threshold now st).nextEntity = st.nextEntity := rfl

lemma despawn_users_emoteAll (threshold now : Nat) (st : ConsumerState) :
    (despawn_users threshold now st).emoteAll = st.emoteAll := rfl

lemma despawn_users_keysNodup {threshold now : Nat} {st : ConsumerState}
    (hnd : keysNodup st.activeUsers) :
    keysNodup (despawn_users threshold now st).activeUsers :=
  List.Nodup.sublist
    (List.Sublist.map _ (List.filter_sublist st.activeUsers)) hnd

lemma bridgeStep_inv {cap : Nat} {st : BridgeState α} {op : BridgeOp α}
    (h : bridgeInv cap st) : bridgeInv cap (bridgeStep cap st op) := by
  obtain ⟨q, sl, rl, susp⟩ := st
  obtain ⟨hfifo, hlen⟩ := h
  simp only [bridgeInv] at hfifo hlen ⊢
  cases op with
  | send x =>
      by_cases hfull : q.length < cap
      · simp only [bridgeStep, hfull, if_true]
        constructor
        · simp only [hfifo, List.append_assoc]
        · simpa using hfull
      · simp only [bridgeStep, hfull, if_false]
        exact ⟨hfifo, hlen⟩
  | tryRecv =>
      cases q with
      | nil => exact ⟨hfifo, hlen⟩
      | cons x t =>
          simp only [bridgeStep]
          constructor
          · rw [hfifo]
            simp
          · simp only [List.length_cons] at hlen
            exact Nat.le_of_succ_le hlen

lemma bridgeRun_inv {cap : Nat} {st : BridgeState α}
    (ops : List (BridgeOp α)) (h : bridgeInv cap st) :
    bridgeInv cap (bridgeRun cap st ops) := by
  induction ops generalizing st with
  | nil => exact h
  | cons op t ih => exact ih (bridgeStep_inv h)

lemma bridgeRun_append (cap : Nat) (st : BridgeState α)
    (ops1 ops2 : List (BridgeOp α)) :
    bridgeRun cap st (ops1 ++ ops2)
      = bridgeRun cap (bridgeRun cap st ops1) ops2 :=
  List.foldl_append _ _ ops1 ops2

lemma bridgeRun_drain (cap : Nat) :
    ∀ (q rl : List α) (sl : List α) (susp : Nat),
      bridgeRun cap { queue := q, sentLog := sl, recvLog := rl, suspended := susp }
        (List.replicate q.length (BridgeOp.tryRecv : BridgeOp α))
        = { queue := [], sentLog := sl, recvLog := rl ++ q, suspended := susp } := by
  intro q
  induction q with
  | nil => intro rl sl susp; simp [bridgeRun]
  | cons x t ih =>
      intro rl sl susp
      rw [List.length_cons, List.replicate_succ]
      show bridgeRun cap
        (bridgeStep cap { queue := x :: t, sentLog := sl, recvLog := rl, suspended := susp }
          BridgeOp.tryRecv)
        (List.replicate t.length BridgeOp.tryRecv) = _
      rw [show bridgeStep cap
          { queue := x :: t, sentLog := sl, recvLog := rl, suspended := susp }
          (BridgeOp.tryRecv : BridgeOp α)
          = { queue := t, sentLog := sl, recvLog := rl ++ [x], suspended := susp } from rfl]
      rw [ih (rl ++ [x]) sl susp]
      simp

lemma adjustSprite_idem (images : String → Option (Rat × Rat))
    (e : SpriteEntity) :
    adjustSprite images (adjustSprite images e) = adjustSprite images e := by
  by_cases hm : e.adjustScale
  · cases hi : images e.image with
    | none => simp [adjustSprite, hm, hi]
    | some wh => simp [adjustSprite, hm, hi]
  · simp [adjustSprite, hm]

lemma listenerTokenInv_run {T : String} (resolve : String → Option String)
    (msgs : List ServerMessage) (st : ListenerState)
    (hnd : ∀ m ∈ msgs, mentionsAtMostOnce T m) (h : listenerTokenInv T st) :
    listenerTokenInv T (listenerRun resolve st msgs) := by
  induction msgs generalizing st with
  | nil => exact h
  | cons m t ih =>
      exact ih (listenerStep resolve st m) (fun m' hm' => hnd m' (List.mem_cons_of_mem m hm'))
        (listenerTokenInv_step resolve (hnd m (List.mem_cons_self m t)) h)

lemma listenerStep_seen_mono {T : String} {st : ListenerState}
    (resolve : String → Option String) (m : ServerMessage)
    (h : T ∈ st.seen_emotes) :
    T ∈ (listenerStep resolve st m).seen_emotes := by
  cases m with
  | other => exact h
  | privmsg sender text emotes =>
      simp only [listenerStep, List.mem_append]
      exact Or.inl h

lemma listenerStep_count_of_seen {T : String} {st : ListenerState}
    (resolve : String → Option String) (m : ServerMessage)
    (h : T ∈ st.seen_emotes) :
    (listenerStep resolve st m).resolveLog.count T
      = st.resolveLog.count T := by
  cases m with
  | other => rfl
  | privmsg sender text emotes =>
      simp [listenerStep, List.count_append,
        resolveCalls_count_eq_zero_of_mem h]

lemma listenerRun_count_of_seen {T : String}
    (resolve : String → Option String) (msgs : List ServerMessage)
    (st : ListenerState) (h : T ∈ st.seen_emotes) :
    (listenerRun resolve st msgs).resolveLog.count T
      = st.resolveLog.count T := by
  induction msgs generalizing st with
  | nil => rfl
  | cons m t ih =>
      exact (ih (listenerStep resolve st m)
          (listenerStep_seen_mono resolve m h)).trans
        (listenerStep_count_of_seen resolve m h)

lemma listenerStep_count_of_not_seen {T : String} {st : ListenerState}
    (resolve : String → Option String) (sender text : String)
    (es : List Emote) (h : T ∉ st.seen_emotes) :
    (listenerStep resolve st (ServerMessage.privmsg sender text es)).resolveLog.count T
      = st.resolveLog.count T + (es.map Emote.name).count T := by
  simp [listenerStep, List.count_append, resolveCalls_count_of_not_seen es h]

lemma listenerStep_enters_seen {T : String} {st : ListenerState}
    (resolve : String → Option String) (sender text : String)
    (es : List Emote) (h : T ∉ st.seen_emotes)
    (hk : (es.map Emote.name).count T ≠ 0) :
    T ∈ (listenerStep resolve st (ServerMessage.privmsg sender text es)).seen_emotes := by
  simp only [listenerStep, List.mem_append]
  refine Or.inr ?_
  rw [← List.count_pos_iff, resolveCalls_count_of_not_seen es h]
  omega

/-! Claim theorems. -/

/-- C1, counterexample: the claim that `update_emote_meta` is invoked at most
once per token per process lifetime fails when a token occurs more than once
inside a single message's emote list: `seen_emotes` is only extended after
the per-message loop, and the loop's filter consults `seen_emotes` alone, so
a message carrying the token "Kappa" twice triggers two resolutions. -/
theorem c1_single_resolution_counterexample :
    ¬ ((listenerRun (fun n => some (String.append "https://cdn/" n)) listenerInit
        [ServerMessage.privmsg "alice" "Kappa Kappa"
          [{ name := "Kappa", url := none }, { name := "Kappa", url := none }]]).resolveLog.count
        "Kappa" ≤ 1) := by
  decide

/-- C1, amended: for every emote token T, metadata resolution is invoked by
the listener at most once per process lifetime provided no single incoming
message's emote list mentions T more than once (other tokens may repeat
freely in the same messages). Unconditionally: once T is in the seen set it
is never resolved again by any later message; and a not-yet-seen token
occurring k times in one message's emote list is resolved exactly k times
by that message and, when k is nonzero, enters the seen set there. -/
theorem c1_resolution_at_most_once_amended :
    (∀ (resolve : String → Option String) (T : String)
        (msgs : List ServerMessage),
       (∀ m ∈ msgs, mentionsAtMostOnce T m) →
       (listenerRun resolve listenerInit msgs).resolveLog.count T ≤ 1) ∧
    (∀ (resolve : String → Option String) (T : String)
        (st : ListenerState) (msgs : List ServerMessage),
       T ∈ st.seen_emotes →
       (listenerRun resolve st msgs).resolveLog.count T
         = st.resolveLog.count T) ∧
    (∀ (resolve : String → Option String) (T : String)
        (st : ListenerState) (sender text : String) (es : List Emote),
       T ∉ st.seen_emotes →
       (listenerStep resolve st
           (ServerMessage.privmsg sender text es)).resolveLog.count T
           = st.resolveLog.count T + (es.map Emote.name).count T ∧
         ((es.map Emote.name).count T ≠ 0 →
           T ∈ (listenerStep resolve st
             (ServerMessage.privmsg sender text es)).seen_emotes)) := by
  refine ⟨?_, ?_, ?_⟩
  · intro resolve T msgs h
    exact (listenerTokenInv_run resolve msgs listenerInit h
      ⟨by simp [listenerInit], by simp [listenerInit]⟩).1
  · intro resolve T st msgs h
    exact listenerRun_count_of_seen resolve msgs st h
  · intro resolve T st sender text es h
    exact ⟨listenerStep_count_of_not_seen resolve sender text es h,
      listenerStep_enters_seen resolve sender text es h⟩

/-- C1, witness: a stream where "Pog" repeats inside one message but
"Kappa" occurs once per message resolves "Kappa" at most once; a listener
that has already seen "Kappa" resolves nothing for it over a further
message; and an unseen "Kappa" occurring twice in one message is resolved
exactly twice there and enters the seen set. -/
theorem c1_amended_witness :
    ((∀ m ∈ [ServerMessage.privmsg "alice" "spam"
               [{ name := "Pog", url := none }, { name := "Pog", url := none },
                { name := "Kappa", url := none }],
             ServerMessage.privmsg "bob" "Kappa again"
               [{ name := "Kappa", url := none }],
             ServerMessage.other], mentionsAtMostOnce "Kappa" m) ∧
      (listenerRun (fun n => some (String.append "https://cdn/" n))
          listenerInit
          [ServerMessage.privmsg "alice" "spam"
             [{ name := "Pog", url := none }, { name := "Pog", url := none },
              { name := "Kappa", url := none }],
           ServerMessage.privmsg "bob" "Kappa again"
             [{ name := "Kappa", url := none }],
           ServerMessage.other]).resolveLog.count "Kappa" ≤ 1) ∧
    (listenerRun (fun _ => none)
        { seen_emotes := ["Kappa"], resolveLog := ["Kappa"], sentEvents := [] }
        [ServerMessage.privmsg "bob" "Kappa again"
           [{ name := "Kappa", url := none }]]).resolveLog.count "Kappa"
      = ({ seen_emotes := ["Kappa"], resolveLog := ["Kappa"],
           sentEvents := [] } : ListenerState).resolveLog.count "Kappa" ∧
    ((listenerStep (fun _ => none) listenerInit
        (ServerMessage.privmsg "alice" "Kappa Kappa"
          [{ name := "Kappa", url := none },
           { name := "Kappa", url := none }])).resolveLog.count "Kappa"
        = listenerInit.resolveLog.count "Kappa"
            + ([{ name := "Kappa", url := (none : Option String) },
                { name := "Kappa", url := none }].map Emote.name).count "Kappa" ∧
      "Kappa" ∈ (listenerStep (fun _ => none) listenerInit
        (ServerMessage.privmsg "alice" "Kappa Kappa"
          [{ name := "Kappa", url := none },
           { name := "Kappa", url := none }])).seen_emotes) := by
  refine ⟨⟨by decide, ?_⟩, ?_, ?_⟩
  · exact c1_resolution_at_most_once_amended.1
      (fun n => some (String.append "https://cdn/" n)) "Kappa" _ (by decide)
  · exact c1_resolution_at_most_once_amended.2.1 (fun _ => none) "Kappa"
      { seen_emotes := ["Kappa"], resolveLog := ["Kappa"], sentEvents := [] }
      [ServerMessage.privmsg "bob" "Kappa again"
         [{ name := "Kappa", url := none }]] (by decide)
  · have h := c1_resolution_at_most_once_amended.2.2 (fun _ => none) "Kappa"
      listenerInit "alice" "Kappa Kappa"
      [{ name := "Kappa", url := none }, { name := "Kappa", url := none }]
      (by decide)
    exact ⟨h.1, h.2 (by decide)⟩

/-- C8: when metadata resolution fails for a token the failure is non-fatal:
the event is still emitted (one more sent event regardless of the oracle), a
failed token's emote is carried unchanged (plain text, no image), every
token occurring in the message is marked seen regardless of the outcome,
and a token already seen triggers no further resolution attempts. -/
theorem c8_resolution_failure_nonfatal
    (resolve : String → Option String) (st : ListenerState)
    (sender text : String) (es : List Emote) (e : Emote) (T : String) :
    ((listenerStep resolve st (ServerMessage.privmsg sender text es)).sentEvents.length
        = st.sentEvents.length + 1) ∧
    (resolve e.name = none → update_emote_meta resolve e = e) ∧
    (resolve e.name = none → e ∈ es →
      e ∈ processedEmotes resolve st.seen_emotes es) ∧
    (e ∈ es →
      e.name ∈ (listenerStep resolve st (ServerMessage.privmsg sender text es)).seen_emotes) ∧
    (T ∈ st.seen_emotes →
      (listenerStep resolve st (ServerMessage.privmsg sender text es)).resolveLog.count T
        = st.resolveLog.count T) := by
  have hupd : resolve e.name = none → update_emote_meta resolve e = e := by
    intro h
    unfold update_emote_meta
    rw [h]
  refine ⟨by simp [listenerStep], hupd, ?_, ?_, ?_⟩
  · intro h hm
    unfold processedEmotes
    refine List.mem_map.mpr ⟨e, hm, ?_⟩
    by_cases hseen : e.name ∈ st.seen_emotes
    · rw [if_pos hseen]
    · rw [if_neg hseen]
      exact hupd h
  · intro hm
    simp only [listenerStep, List.mem_append]
    by_cases hseen : e.name ∈ st.seen_emotes
    · exact Or.inl hseen
    · exact Or.inr (mem_resolveCalls_of_not_seen hm hseen)
  · intro h
    simp [listenerStep, List.count_append, resolveCalls_count_eq_zero_of_mem h]

/-- C8, witness: with an always-failing oracle, a message carrying the token
"FeelsBad" still yields one sent event, the emote is carried unchanged, the
token is marked seen, and the already-seen token "Sad" is not re-resolved. -/
theorem c8_witness :
    update_emote_meta (fun _ => none) { name := "FeelsBad", url := none }
      = { name := "FeelsBad", url := none } ∧
    ({ name := "FeelsBad", url := none } : Emote)
      ∈ processedEmotes (fun _ => none) ["Sad"] [{ name := "FeelsBad", url := none }] ∧
    "FeelsBad" ∈ (listenerStep (fun _ => none)
        { seen_emotes := ["Sad"], resolveLog := ["Sad"], sentEvents := [] }
        (ServerMessage.privmsg "bob" "so FeelsBad"
          [{ name := "FeelsBad", url := none }])).seen_emotes ∧
    (listenerStep (fun _ => none)
        { seen_emotes := ["Sad"], resolveLog := ["Sad"], sentEvents := [] }
        (ServerMessage.privmsg "bob" "so FeelsBad"
          [{ name := "FeelsBad", url := none }])).resolveLog.count "Sad"
      = ({ seen_emotes := ["Sad"], resolveLog := ["Sad"],
           sentEvents := [] } : ListenerState).resolveLog.count "Sad" := by
  have h := c8_resolution_failure_nonfatal (fun _ => none)
    { seen_emotes := ["Sad"], resolveLog := ["Sad"], sentEvents := [] }
    "bob" "so FeelsBad" [{ name := "FeelsBad", url := none }]
    { name := "FeelsBad", url := none } "Sad"
  exact ⟨h.2.1 rfl, h.2.2.1 rfl (by decide), h.2.2.2.1 (by decide),
    h.2.2.2.2 (by decide)⟩

/-- C10: only `Privmsg` server messages produce events: any other incoming
server message leaves the whole listener state unchanged (no event, no cache
write, no seen-token update), and each emitted event carries the sender
name, the message text and the message's emote occurrences with their names
intact — the empty list when the message has no emotes. -/
theorem c10_only_privmsg_produces_events
    (resolve : String → Option String) (st : ListenerState)
    (sender text : String) (es : List Emote) :
    listenerStep resolve st ServerMessage.other = st ∧
    (listenerStep resolve st (ServerMessage.privmsg sender text es)).sentEvents
      = st.sentEvents ++
        [{ user := sender, message := text,
           emotes := processedEmotes resolve st.seen_emotes es }] ∧
    (processedEmotes resolve st.seen_emotes es).map Emote.name = es.map Emote.name ∧
    processedEmotes resolve st.seen_emotes ([] : List Emote) = [] :=
  ⟨rfl, rfl, processedEmotes_map_name resolve st.seen_emotes es, rfl⟩

/-- C2: the active-user table holds at most one session per identity: an
event from an identity already in the table only refreshes its
last-activity timestamp and attaches a bubble to the existing avatar entity
(keys and spawn log unchanged), an event from an unseen identity appends
exactly one fresh session whose avatar is the freshly spawned entity, and
key distinctness is preserved by processing any sequence of drained
events. -/
theorem c2_at_most_one_session_per_identity :
    (∀ (v : Option Unit) (now : Nat) (st st' : ConsumerState)
        (m : TwitchMessage) (u : User),
       lookupA st.activeUsers m.user = some u →
       processEvent v now st m = Except.ok st' →
         st'.activeUsers.map Prod.fst = st.activeUsers.map Prod.fst ∧
         st'.spawnLog = st.spawnLog ∧
         st'.bubbles = st.bubbles ++ [(u.entity, m.message)] ∧
         lookupA st'.activeUsers m.user
           = some { u with last_message_time := now }) ∧
    (∀ (now : Nat) (st st' : ConsumerState) (m : TwitchMessage),
       lookupA st.activeUsers m.user = none →
       processEvent (some ()) now st m = Except.ok st' →
         st'.activeUsers = st.activeUsers ++
           [(m.user, { entity := st.nextEntity, name := m.user,
                       last_message_time := now })] ∧
         st'.spawnLog = st.spawnLog ++ [st.nextEntity]) ∧
    (∀ (v : Option Unit) (now : Nat) (st st' : ConsumerState)
        (ms : List TwitchMessage),
       keysNodup st.activeUsers →
       consumerRun v now st ms = Except.ok st' →
       keysNodup st'.activeUsers) := by
  refine ⟨?_, ?_, ?_⟩
  · intro v now st st' m u hlk hok
    rw [processEvent_lookup_some v now hlk] at hok
    cases hok
    exact ⟨map_fst_insertA_of_some hlk _, rfl, rfl,
      lookupA_insertA_self st.activeUsers m.user _⟩
  · intro now st st' m hlk hok
    rw [processEvent_lookup_none now hlk] at hok
    cases hok
    exact ⟨rfl, rfl⟩
  · intro v now st st' ms hnd h
    exact consumerRun_keysNodup hnd h

/-- C2, witness: a second event from "alice" refreshes her single session
and spawns nothing; a first event from "bob" appends exactly one session;
running a one-event sequence preserves key distinctness. -/
theorem c2_witness :
    (({ emoteAll := [],
        activeUsers := [("alice", { entity := 0, name := "alice",
                                    last_message_time := 5 })],
        nextEntity := 1, bubbles := [(0, "hello")], spawnLog := [0],
        despawnLog := [] } : ConsumerState).activeUsers.map Prod.fst
        = ({ emoteAll := [],
             activeUsers := [("alice", { entity := 0, name := "alice",
                                         last_message_time := 0 })],
             nextEntity := 1, bubbles := [], spawnLog := [0],
             despawnLog := [] } : ConsumerState).activeUsers.map Prod.fst ∧
      ({ emoteAll := [],
         activeUsers := [("alice", { entity := 0, name := "alice",
                                     last_message_time := 5 })],
         nextEntity := 1, bubbles := [(0, "hello")], spawnLog := [0],
         despawnLog := [] } : ConsumerState).spawnLog
        = ({ emoteAll := [],
             activeUsers := [("alice", { entity := 0, name := "alice",
                                         last_message_time := 0 })],
             nextEntity := 1, bubbles := [], spawnLog := [0],
             despawnLog := [] } : ConsumerState).spawnLog ∧
      ({ emoteAll := [],
         activeUsers := [("alice", { entity := 0, name := "alice",
                                     last_message_time := 5 })],
         nextEntity := 1, bubbles := [(0, "hello")], spawnLog := [0],
         despawnLog := [] } : ConsumerState).bubbles
        = ([] : List (Nat × String)) ++ [(0, "hello")] ∧
      lookupA ({ emoteAll := [],
                 activeUsers := [("alice", { entity := 0, name := "alice",
                                             last_message_time := 5 })],
                 nextEntity := 1, bubbles := [(0, "hello")],
                 spawnLog := [0],
                 despawnLog := [] } : ConsumerState).activeUsers "alice"
        = some { entity := 0, name := "alice", last_message_time := 5 }) ∧
    keysNodup ({ emoteAll := [],
                 activeUsers := [("bob", { entity := 0, name := "bob",
                                           last_message_time := 5 })],
                 nextEntity := 1, bubbles := [(0, "hi")], spawnLog := [0],
                 despawnLog := [] } : ConsumerState).activeUsers := by
  constructor
  · exact c2_at_most_one_session_per_identity.1 (some ()) 5
      { emoteAll := [],
        activeUsers := [("alice", { entity := 0, name := "alice",
                                    last_message_time := 0 })],
        nextEntity := 1, bubbles := [], spawnLog := [0], despawnLog := [] }
      { emoteAll := [],
        activeUsers := [("alice", { entity := 0, name := "alice",
                                    last_message_time := 5 })],
        nextEntity := 1, bubbles := [(0, "hello")], spawnLog := [0],
        despawnLog := [] }
      { user := "alice", message := "hello", emotes := [] }
      { entity := 0, name := "alice", last_message_time := 0 }
      (by rfl) (by rfl)
  · exact c2_at_most_one_session_per_identity.2.2 (some ()) 5 consumerInit
      { emoteAll := [],
        activeUsers := [("bob", { entity := 0, name := "bob",
                                  last_message_time := 5 })],
        nextEntity := 1, bubbles := [(0, "hi")], spawnLog := [0],
        despawnLog := [] }
      [{ user := "bob", message := "hi", emotes := [] }]
      (by decide) (by rfl)

/-- C3, counterexample: the claim that a missing viewport defers the avatar
spawn and never surfaces as a panic fails on the code: for a new identity
with no viewport available, `handle_twitch_messages` reaches
`logical_viewport_rect().unwrap()` and panics. -/
theorem c3_missing_viewport_counterexample :
    processEvent none 0 consumerInit
      { user := "alice", message := "hi", emotes := [] }
      = Except.error unwrapPanic := rfl

/-- C3, amended: when the rendering engine cannot yet report a viewport and
a new-identity event is processed, the spawn is not deferred: the consumer
unwraps the missing viewport rect and panics. -/
theorem c3_missing_viewport_amended (now : Nat) (st : ConsumerState)
    (m : TwitchMessage) (h : lookupA st.activeUsers m.user = none) :
    processEvent none now st m = Except.error unwrapPanic :=
  processEvent_lookup_none_no_viewport now h

/-- C3, witness: a concrete new-identity event under a missing viewport. -/
theorem c3_witness :
    processEvent none 7 consumerInit
      { user := "bob", message := "yo", emotes := [] }
      = Except.error unwrapPanic :=
  c3_missing_viewport_amended 7 consumerInit
    { user := "bob", message := "yo", emotes := [] } (by rfl)

/-- C7, counterexample: the claim that the consumer domain never mutates the
emote cache fails on the code: `handle_twitch_messages` runs
`emote_rec.all.entry(name).or_insert(emote)`, so processing an event that
carries a new emote grows `EmoteStorage.all` from empty to one entry. -/
theorem c7_consumer_writes_cache_counterexample :
    (processEvent (some ()) 0 consumerInit
        { user := "alice", message := "hi",
          emotes := [{ name := "K", url := some "u" }] }).map
      ConsumerState.emoteAll
      = Except.ok [("K", { name := "K", url := some "u" })] ∧
    consumerInit.emoteAll = [] := ⟨rfl, rfl⟩

/-- C7, amended: the `EmoteStorage` cache lives in and is written only by
the consumer domain: the eviction scan never touches it, and the only write
is `handle_twitch_messages` merging the metadata that arrives attached to
the drained chat event (the listener task keeps its own private seen-token
set and never accesses this map). -/
theorem c7_cache_single_writer_amended :
    (∀ (threshold now : Nat) (st : ConsumerState),
        (despawn_users threshold now st).emoteAll = st.emoteAll) ∧
    (∀ (v : Option Unit) (now : Nat) (st st' : ConsumerState)
        (m : TwitchMessage),
        processEvent v now st m = Except.ok st' →
        st'.emoteAll = mergeEmotes st.emoteAll m.emotes) :=
  ⟨fun _ _ _ => rfl, fun _ _ _ _ _ h => processEvent_emoteAll h⟩

/-- C7, witness: processing a concrete event yields exactly the or-insert
merge of its attached metadata into the cache. -/
theorem c7_witness :
    ({ emoteAll := [("K", { name := "K", url := some "u" })],
       activeUsers := [("alice", { entity := 0, name := "alice",
                                   last_message_time := 0 })],
       nextEntity := 1, bubbles := [(0, "hi")], spawnLog := [0],
       despawnLog := [] } : ConsumerState).emoteAll
      = mergeEmotes consumerInit.emoteAll [{ name := "K", url := some "u" }] :=
  c7_cache_single_writer_amended.2 (some ()) 0 consumerInit
    { emoteAll := [("K", { name := "K", url := some "u" })],
      activeUsers := [("alice", { entity := 0, name := "alice",
                                  last_message_time := 0 })],
      nextEntity := 1, bubbles := [(0, "hi")], spawnLog := [0],
      despawnLog := [] }
    { user := "alice", message := "hi",
      emotes := [{ name := "K", url := some "u" }] }
    (by rfl)

/-- C9: the consumer's cache merge is first-write-wins: a token already
present in `EmoteStorage.all` keeps its existing entry unchanged when a
later event carries metadata for the same token, because
`entry().or_insert()` inserts only absent keys. -/
theorem c9_first_write_wins (v : Option Unit) (now : Nat)
    (st st' : ConsumerState) (m : TwitchMessage) (T : String) (e : Emote)
    (hok : processEvent v now st m = Except.ok st')
    (h : lookupA st.emoteAll T = some e) :
    lookupA st'.emoteAll T = some e := by
  rw [processEvent_emoteAll hok]
  exact lookupA_mergeEmotes_of_some h

/-- C9, witness: an event carrying fresh metadata for the already-stored
token "K" leaves the stored entry unchanged. -/
theorem c9_witness :
    lookupA ({ emoteAll := [("K", { name := "K", url := some "old" })],
               activeUsers := [("alice", { entity := 0, name := "alice",
                                           last_message_time := 3 })],
               nextEntity := 1, bubbles := [(0, "hi")], spawnLog := [0],
               despawnLog := [] } : ConsumerState).emoteAll "K"
      = some { name := "K", url := some "old" } :=
  c9_first_write_wins (some ()) 3
    { emoteAll := [("K", { name := "K", url := some "old" })],
      activeUsers := [], nextEntity := 0, bubbles := [], spawnLog := [],
      despawnLog := [] }
    { emoteAll := [("K", { name := "K", url := some "old" })],
      activeUsers := [("alice", { entity := 0, name := "alice",
                                  last_message_time := 3 })],
      nextEntity := 1, bubbles := [(0, "hi")], spawnLog := [0],
      despawnLog := [] }
    { user := "alice", message := "hi",
      emotes := [{ name := "K", url := some "new" }] }
    "K" { name := "K", url := some "old" } (by rfl) (by rfl)

/-- C6: a session with no refresh for at least the inactivity threshold is
removed by the eviction scan and its avatar handle is logged despawned
exactly once; a session refreshed at tick k is never evicted before tick
k + threshold; and after eviction a later event from the same identity
creates a brand-new session whose avatar entity differs from the old
one. -/
theorem c6_eviction_and_no_resurrection
    (threshold now now2 : Nat) (st : ConsumerState) (I : String) (u : User)
    (m : TwitchMessage) (st3 : ConsumerState) :
    (keysNodup st.activeUsers → (I, u) ∈ st.activeUsers →
       u.last_message_time + threshold ≤ now →
       lookupA (despawn_users threshold now st).activeUsers I = none) ∧
    (entitiesNodup st.activeUsers → (I, u) ∈ st.activeUsers →
       u.last_message_time + threshold ≤ now →
       (despawn_users threshold now st).despawnLog.count u.entity
         = st.despawnLog.count u.entity + 1) ∧
    ((I, u) ∈ st.activeUsers → u.last_message_time ≤ now →
       now < u.last_message_time + threshold →
       (I, u) ∈ (despawn_users threshold now st).activeUsers) ∧
    (keysNodup st.activeUsers → (I, u) ∈ st.activeUsers →
       u.last_message_time + threshold ≤ now →
       m.user = I → u.entity < st.nextEntity →
       processEvent (some ()) now2 (despawn_users threshold now st) m
         = Except.ok st3 →
       lookupA st3.activeUsers I
           = some { entity := st.nextEntity, name := I,
                    last_message_time := now2 } ∧
         st.nextEntity ≠ u.entity ∧
         st3.spawnLog
           = (despawn_users threshold now st).spawnLog ++ [st.nextEntity]) := by
  refine ⟨?_, ?_, ?_, ?_⟩
  · intro hnd hmem hold
    exact despawn_users_lookup_none hnd hmem (by omega)
  · intro hend hmem hold
    exact despawn_users_despawnLog_count hend hmem (by omega)
  · intro hmem hle hfresh
    exact despawn_users_keeps hmem (by omega)
  · intro hnd hmem hold huser hlt hok
    subst huser
    have hlk : lookupA (despawn_users threshold now st).activeUsers m.user
        = none := despawn_users_lookup_none hnd hmem (by omega)
    rw [processEvent_lookup_none now2 hlk] at hok
    cases hok
    refine ⟨?_, by omega, rfl⟩
    rw [lookupA_append_right hlk]
    simp [lookupA, despawn_users_nextEntity]

/-- C6, witness: with threshold 10, at tick 20 the session of "old" (last
refresh at tick 5) is evicted and entity 0 despawned once, the session of
"fresh" (last refresh at tick 15) survives, and a tick-21 event from "old"
creates a brand-new session with the fresh entity 2 ≠ 0. -/
theorem c6_witness :
    lookupA (despawn_users 10 20
        { emoteAll := [],
          activeUsers :=
            [("old", { entity := 0, name := "old", last_message_time := 5 }),
             ("fresh", { entity := 1, name := "fresh",
                         last_message_time := 15 })],
          nextEntity := 2, bubbles := [], spawnLog := [0, 1],
          despawnLog := [] }).activeUsers "old" = none ∧
    (despawn_users 10 20
        { emoteAll := [],
          activeUsers :=
            [("old", { entity := 0, name := "old", last_message_time := 5 }),
             ("fresh", { entity := 1, name := "fresh",
                         last_message_time := 15 })],
          nextEntity := 2, bubbles := [], spawnLog := [0, 1],
          despawnLog := [] }).despawnLog.count 0
      = ({ emoteAll := [],
           activeUsers :=
             [("old", { entity := 0, name := "old", last_message_time := 5 }),
              ("fresh", { entity := 1, name := "fresh",
                          last_message_time := 15 })],
           nextEntity := 2, bubbles := [], spawnLog := [0, 1],
           despawnLog := [] } : ConsumerState).despawnLog.count 0 + 1 ∧
    ("fresh", { entity := 1, name := "fresh", last_message_time := 15 })
      ∈ (despawn_users 10 20
        { emoteAll := [],
          activeUsers :=
            [("old", { entity := 0, name := "old", last_message_time := 5 }),
             ("fresh", { entity := 1, name := "fresh",
                         last_message_time := 15 })],
          nextEntity := 2, bubbles := [], spawnLog := [0, 1],
          despawnLog := [] }).activeUsers ∧
    (lookupA ({ emoteAll := [],
                activeUsers :=
                  [("fresh", { entity := 1, name := "fresh",
                               last_message_time := 15 }),
                   ("old", { entity := 2, name := "old",
                             last_message_time := 21 })],
                nextEntity := 3, bubbles := [(2, "back")],
                spawnLog := [0, 1, 2],
                despawnLog := [0] } : ConsumerState).activeUsers "old"
        = some { entity := 2, name := "old", last_message_time := 21 } ∧
      (2 : Nat) ≠ 0 ∧
      ({ emoteAll := [],
         activeUsers :=
           [("fresh", { entity := 1, name := "fresh",
                        last_message_time := 15 }),
            ("old", { entity := 2, name := "old",
                      last_message_time := 21 })],
         nextEntity := 3, bubbles := [(2, "back")],
         spawnLog := [0, 1, 2],
         despawnLog := [0] } : ConsumerState).spawnLog
        = (despawn_users 10 20
            { emoteAll := [],
              activeUsers :=
                [("old", { entity := 0, name := "old",
                           last_message_time := 5 }),
                 ("fresh", { entity := 1, name := "fresh",
                             last_message_time := 15 })],
              nextEntity := 2, bubbles := [], spawnLog := [0, 1],
              despawnLog := [] }).spawnLog ++ [2]) := by
  have h := c6_eviction_and_no_resurrection 10 20 21
    { emoteAll := [],
      activeUsers :=
        [("old", { entity := 0, name := "old", last_message_time := 5 }),
         ("fresh", { entity := 1, name := "fresh",
                     last_message_time := 15 })],
      nextEntity := 2, bubbles := [], spawnLog := [0, 1], despawnLog := [] }
    "old" { entity := 0, name := "old", last_message_time := 5 }
    { user := "old", message := "back", emotes := [] }
    { emoteAll := [],
      activeUsers :=
        [("fresh", { entity := 1, name := "fresh",
                     last_message_time := 15 }),
         ("old", { entity := 2, name := "old", last_message_time := 21 })],
      nextEntity := 3, bubbles := [(2, "back")], spawnLog := [0, 1, 2],
      despawnLog := [0] }
  have h2 := c6_eviction_and_no_resurrection 10 20 21
    { emoteAll := [],
      activeUsers :=
        [("old", { entity := 0, name := "old", last_message_time := 5 }),
         ("fresh", { entity := 1, name := "fresh",
                     last_message_time := 15 })],
      nextEntity := 2, bubbles := [], spawnLog := [0, 1], despawnLog := [] }
    "fresh" { entity := 1, name := "fresh", last_message_time := 15 }
    { user := "old", message := "back", emotes := [] }
    { emoteAll := [],
      activeUsers :=
        [("fresh", { entity := 1, name := "fresh",
                     last_message_time := 15 }),
         ("old", { entity := 2, name := "old", last_message_time := 21 })],
      nextEntity := 3, bubbles := [(2, "back")], spawnLog := [0, 1, 2],
      despawnLog := [0] }
  exact ⟨h.1 (by decide) (by decide) (by decide),
    h.2.1 (by decide) (by decide) (by decide),
    h2.2.2.1 (by decide) (by decide) (by decide),
    h.2.2.2 (by decide) (by decide) (by decide) rfl (by decide) (by rfl)⟩

/-- C4: the channel bridge is a bounded FIFO queue of capacity 100: after
any interleaving of sends and receives, the accepted events are exactly the
delivered events followed, in order, by the still-queued ones (FIFO, no
reordering, coalescing, dropping or duplication), the queue never exceeds
100, `try_recv` on an empty queue is a non-blocking no-op, a send on a full
queue suspends the sender without dropping, and draining all currently
queued events delivers everything sent, in order. -/
theorem c4_bridge_bounded_fifo :
    bridgeCapacity = 100 ∧
    (∀ (α : Type) (ops : List (BridgeOp α)),
       (bridgeRun bridgeCapacity bridgeInit ops).sentLog
         = (bridgeRun bridgeCapacity bridgeInit ops).recvLog
             ++ (bridgeRun bridgeCapacity bridgeInit ops).queue ∧
       (bridgeRun bridgeCapacity bridgeInit ops).queue.length
         ≤ bridgeCapacity) ∧
    (∀ (α : Type) (st : BridgeState α), st.queue = [] →
       bridgeStep bridgeCapacity st BridgeOp.tryRecv = st) ∧
    (∀ (α : Type) (st : BridgeState α) (x : α),
       ¬ st.queue.length < bridgeCapacity →
       bridgeStep bridgeCapacity st (BridgeOp.send x)
         = { st with suspended := st.suspended + 1 }) ∧
    (∀ (α : Type) (ops : List (BridgeOp α)),
       (bridgeRun bridgeCapacity bridgeInit
          (ops ++ List.replicate
            (bridgeRun bridgeCapacity bridgeInit ops).queue.length
            BridgeOp.tryRecv)).recvLog
         = (bridgeRun bridgeCapacity bridgeInit ops).sentLog) := by
  refine ⟨rfl, ?_, ?_, ?_, ?_⟩
  · intro α ops
    exact bridgeRun_inv ops ⟨rfl, Nat.zero_le _⟩
  · intro α st hq
    obtain ⟨q, sl, rl, susp⟩ := st
    simp only at hq
    subst hq
    rfl
  · intro α st x h
    simp only [bridgeStep, if_neg h]
  · intro α ops
    have hinv := (@bridgeRun_inv α bridgeCapacity bridgeInit ops
      ⟨rfl, Nat.zero_le _⟩).1
    rw [bridgeRun_append]
    generalize bridgeRun bridgeCapacity bridgeInit ops = B at hinv ⊢
    obtain ⟨q, sl, rl, susp⟩ := B
    simp only at hinv ⊢
    rw [bridgeRun_drain]
    simpa using hinv.symm

/-- C4, witness: sending 1, 2 and receiving once delivers 1 and leaves 2
queued with the FIFO equation intact; `try_recv` on the fresh channel is a
no-op; a send on a 100-deep queue only increments the suspension count; and
draining delivers everything in order. -/
theorem c4_witness :
    ((bridgeRun bridgeCapacity bridgeInit
        [BridgeOp.send 1, BridgeOp.send 2, BridgeOp.tryRecv]).sentLog
      = (bridgeRun bridgeCapacity bridgeInit
          [BridgeOp.send 1, BridgeOp.send 2, BridgeOp.tryRecv]).recvLog
          ++ (bridgeRun bridgeCapacity bridgeInit
              [BridgeOp.send 1, BridgeOp.send 2, BridgeOp.tryRecv]).queue ∧
      (bridgeRun bridgeCapacity bridgeInit
        [BridgeOp.send 1, BridgeOp.send 2, BridgeOp.tryRecv]).queue.length
        ≤ bridgeCapacity) ∧
    bridgeStep bridgeCapacity (bridgeInit : BridgeState Nat)
        BridgeOp.tryRecv = bridgeInit ∧
    bridgeStep bridgeCapacity
        ({ queue := List.replicate 100 0, sentLog := List.replicate 100 0,
           recvLog := [], suspended := 0 } : BridgeState Nat)
        (BridgeOp.send 5)
      = { queue := List.replicate 100 0, sentLog := List.replicate 100 0,
          recvLog := [], suspended := 1 } ∧
    (bridgeRun bridgeCapacity bridgeInit
        ([BridgeOp.send 1, BridgeOp.send 2, BridgeOp.tryRecv] ++
          List.replicate
            (bridgeRun bridgeCapacity bridgeInit
              [BridgeOp.send 1, BridgeOp.send 2, BridgeOp.tryRecv]).queue.length
            BridgeOp.tryRecv)).recvLog
      = (bridgeRun bridgeCapacity bridgeInit
          [BridgeOp.send 1, BridgeOp.send 2, BridgeOp.tryRecv]).sentLog := by
  refine ⟨c4_bridge_bounded_fifo.2.1 Nat
      [BridgeOp.send 1, BridgeOp.send 2, BridgeOp.tryRecv], ?_, ?_,
    c4_bridge_bounded_fifo.2.2.2.2 Nat
      [BridgeOp.send 1, BridgeOp.send 2, BridgeOp.tryRecv]⟩
  · exact c4_bridge_bounded_fifo.2.2.1 Nat bridgeInit rfl
  · exact c4_bridge_bounded_fifo.2.2.2.1 Nat
      { queue := List.replicate 100 0, sentLog := List.replicate 100 0,
        recvLog := [], suspended := 0 } 5 (by decide)

/-- C5: a pending visual stays unchanged (invisible, unscaled, still
marked) while its backing image's intrinsic dimensions are unavailable; an
already-finalized (unmarked) visual is never touched; on the first tick the
dimensions are available it is resized to the fixed target height 46
preserving the aspect ratio, made visible and unmarked; and running the
whole fix-up system twice produces no further change. -/
theorem c5_pending_visual_finalization :
    (∀ (images : String → Option (Rat × Rat)) (e : SpriteEntity),
       e.adjustScale = true → images e.image = none →
       adjustSprite images e = e) ∧
    (∀ (images : String → Option (Rat × Rat)) (e : SpriteEntity),
       e.adjustScale = false → adjustSprite images e = e) ∧
    (∀ (images : String → Option (Rat × Rat)) (e : SpriteEntity)
        (w h : Rat),
       e.adjustScale = true → images e.image = some (w, h) → h ≠ 0 →
       adjustSprite images e
           = { e with customSize := some (w * (46 / h), 46),
                      visible := true, adjustScale := false } ∧
         w * (46 / h) * h = 46 * w) ∧
    (∀ (images : String → Option (Rat × Rat)) (es : List SpriteEntity),
       adjust_sprite_scale_system images (adjust_sprite_scale_system images es)
         = adjust_sprite_scale_system images es) := by
  refine ⟨?_, ?_, ?_, ?_⟩
  · intro images e hm hi
    simp [adjustSprite, hm, hi]
  · intro images e hm
    simp [adjustSprite, hm]
  · intro images e w h hm hi hne
    have hh : h * (46 / h) = 46 := by
      rw [mul_comm]
      exact div_mul_cancel₀ 46 hne
    constructor
    · simp [adjustSprite, hm, hi, hh]
    · rw [mul_assoc, div_mul_cancel₀ 46 hne, mul_comm]
  · intro images es
    unfold adjust_sprite_scale_system
    rw [List.map_map]
    apply List.map_congr_left
    intro e _
    exact adjustSprite_idem images e

/-- C5, witness: a pending 92×46 avatar image is finalized to width 92 and
height 46 (aspect ratio preserved) and unmarked, a pending visual with a
still-loading image is untouched, and an already-finalized one is never
touched. -/
theorem c5_witness :
    (adjustSprite (fun _ => some ((92 : Rat), (46 : Rat)))
        { image := "avatar.png", customSize := none, visible := false,
          adjustScale := true }
        = { image := "avatar.png",
            customSize := some ((92 : Rat) * (46 / 46), 46),
            visible := true, adjustScale := false } ∧
      (92 : Rat) * (46 / 46) * 46 = 46 * 92) ∧
    adjustSprite (fun _ => none)
        { image := "avatar.png", customSize := none, visible := false,
          adjustScale := true }
      = { image := "avatar.png", customSize := none, visible := false,
          adjustScale := true } ∧
    adjustSprite (fun _ => some ((92 : Rat), (46 : Rat)))
        { image := "avatar.png", customSize := some (92, 46),
          visible := true, adjustScale := false }
      = { image := "avatar.png", customSize := some (92, 46),
          visible := true, adjustScale := false } := by
  refine ⟨c5_pending_visual_finalization.2.2.1 (fun _ => some (92, 46))
      { image := "avatar.png", customSize := none, visible := false,
        adjustScale := true } 92 46 rfl rfl (by decide), ?_, ?_⟩
  · exact c5_pending_visual_finalization.1 (fun _ => none)
      { image := "avatar.png", customSize := none, visible := false,
        adjustScale := true } rfl rfl
  · exact c5_pending_visual_finalization.2.1 (fun _ => some (92, 46))
      { image := "avatar.png", customSize := some (92, 46),
        visible := true, adjustScale := false } rfl

end WatchParty
